import Mathlib

/-!
Shallow embedding of the spread computation and signal-classification engine
of `src/Spread_Monitor.py`, together with theorems settling the spec claims.

Dates are modelled as natural numbers (calendar dates are totally ordered and
only their order matters to the code).  Finite float values are modelled as
rationals; the classifier additionally handles the IEEE special values
`float('nan')`, `float('-inf')` and `float('inf')`, which the configuration
table and the comparison `min_val <= value < max_val` use, so classifier
values live in an extended type `FVal` whose comparison functions mirror
Python float comparison semantics (every comparison involving NaN is false).
A pandas `Series` is modelled as a list of (date, value) observations; a
missing value (NaN cell) is modelled as `none` where it can occur.
-/

/-- Extended value type for the classifier: Python floats as used by
`get_signal_status`, i.e. NaN, minus infinity, plus infinity, or a finite
value (modelled as a rational). -/
inductive FVal : Type
  | nan : FVal
  | ninf : FVal
  | pinf : FVal
  | fin : ℚ → FVal
deriving DecidableEq, Repr

/-- Python `<=` on floats: false whenever either side is NaN; `-inf` is below
everything else, `+inf` above everything else; finite values compare as
rationals. -/
def fle : FVal → FVal → Bool
  | .nan, _ => false
  | _, .nan => false
  | .ninf, _ => true
  | _, .pinf => true
  | .pinf, _ => false
  | .fin _, .ninf => false
  | .fin x, .fin y => decide (x ≤ y)

/-- Python `<` on floats: false whenever either side is NaN; strict version of
`fle`. -/
def flt : FVal → FVal → Bool
  | .nan, _ => false
  | _, .nan => false
  | _, .ninf => false
  | .ninf, _ => true
  | .pinf, _ => false
  | .fin _, .pinf => true
  | .fin x, .fin y => decide (x < y)

/-- One entry of a `signals` dict in the SPREADS table: the dict key and the
tuple `(min_val, max_val, message)`. -/
structure SignalRule : Type where
  signal_name : String
  min_val : FVal
  max_val : FVal
  message : String
deriving DecidableEq, Repr

/-- The default label returned by `get_signal_status` when no rule matches
(source line 263). -/
def defaultStatus : String := "📊 데이터 확인 필요"

/-- Embedding of `get_signal_status(value, signals)` (source lines 258-263):
iterate the rules in declared (dict insertion) order and return the message of
the first rule with `min_val <= value < max_val`; return the default label if
none matches. -/
def get_signal_status (value : FVal) : List SignalRule → String
  | [] => defaultStatus
  | r :: rest =>
    if fle r.min_val value && flt value r.max_val then r.message
    else get_signal_status value rest

/-- Embedding of the inline normal-range check at source lines 404 and 406:
`threshold_min <= latest_value <= threshold_max` (a Python chained comparison,
inclusive at both ends). -/
def in_range (threshold_min threshold_max value : ℚ) : Bool :=
  decide (threshold_min ≤ value) && decide (value ≤ threshold_max)

/-- A RuleSet of exactly two rules for a single min/max band, as the spec
describes it: an inside rule on the half-open band `[min, max)` and a
catch-all outside rule.  This definition follows the spec's words (it is the
refinement target for the `in_range` check); it is not itself source code. -/
def twoRules (threshold_min threshold_max : ℚ) : List SignalRule :=
  [⟨"inside", FVal.fin threshold_min, FVal.fin threshold_max, "inside"⟩,
   ⟨"outside", FVal.ninf, FVal.pinf, "outside"⟩]

/-- Insert a date into an ascending duplicate-free list of dates, keeping it
ascending and duplicate-free.  Folding this over all dates of both series
yields the sorted union index that `df1.join(df2, how='outer')` produces. -/
def insertSorted (d : Nat) : List Nat → List Nat
  | [] => [d]
  | x :: xs =>
    if d < x then d :: x :: xs
    else if d = x then x :: xs
    else x :: insertSorted d xs

/-- The sorted, duplicate-free union of the date indexes of two series: the
row index of the outer join at source line 246. -/
def unionDates (s1 s2 : List (Nat × ℚ)) : List Nat :=
  (s1.map Prod.fst ++ s2.map Prod.fst).foldr insertSorted []

/-- Forward-fill lookup: the value of the last observation of `s` whose date
is at or before `d`, or `none` when the series has no observation yet.  This
is what `fillna(method='ffill')` at source line 248 leaves in a column at row
`d` of the sorted outer-join index; a later duplicate occurrence wins. -/
def lookupFfill : List (Nat × ℚ) → Nat → Option ℚ
  | [], _ => none
  | p :: rest, d =>
    if p.1 ≤ d then
      match lookupFfill rest d with
      | some v => some v
      | none => some p.2
    else lookupFfill rest d

/-- One row of the joined frame after forward-fill: `some (d, a, b)` when both
columns have a value at date `d`, `none` when the row would still contain NaN
and is removed by `dropna()` (source line 248). -/
def alignRow (s1 s2 : List (Nat × ℚ)) (d : Nat) : Option (Nat × ℚ × ℚ) :=
  match lookupFfill s1 d, lookupFfill s2 d with
  | some a, some b => some (d, a, b)
  | _, _ => none

/-- Embedding of the alignment step of `calculate_spread` (source lines
246-248): outer join on the union of dates, forward-fill each column, drop
rows that still have a missing value. -/
def align (s1 s2 : List (Nat × ℚ)) : List (Nat × ℚ × ℚ) :=
  (unionDates s1 s2).filterMap (alignRow s1 s2)

/-- Embedding of the spread column computed at source line 251:
`df['spread'] = (df[series1_id] - df[series2_id]) * multiplier`. -/
def computeSpread (multiplier : ℚ) (aligned : List (Nat × ℚ × ℚ)) : List (Nat × ℚ) :=
  aligned.map (fun r => (r.1, (r.2.1 - r.2.2) * multiplier))

/-- Embedding of `latest_value = df['spread'].iloc[-1] if len(df) > 0 else
None` (source line 254): the last spread value, or `none` on an empty frame. -/
def latestValue (spread : List (Nat × ℚ)) : Option ℚ :=
  spread.getLast?.map Prod.snd

/-- Embedding of the pure core of `calculate_spread` (source lines 246-256),
after the two series have been fetched: the spread frame and the latest
value. -/
def calculate_spread (s1 s2 : List (Nat × ℚ)) (multiplier : ℚ) :
    List (Nat × ℚ) × Option ℚ :=
  let df := computeSpread multiplier (align s1 s2)
  (df, latestValue df)

/-- The row-wise spread transform on cells that may be missing, with pandas
NaN-propagation semantics: `(a - b) * multiplier` is NaN (`none`) whenever
either input cell is NaN.  This is what the expression at source line 251
computes on a single row; the code contains no NaN check. -/
def spreadRowVal (multiplier : ℚ) : Option ℚ → Option ℚ → Option ℚ
  | some a, some b => some ((a - b) * multiplier)
  | _, _ => none

/-- Embedding of `df['spread'].mean()` (source line 554) on the list of spread
values: pandas returns NaN (`none`) on an empty series, the arithmetic mean
otherwise. -/
def seriesMean : List ℚ → Option ℚ
  | [] => none
  | x :: xs => some ((x :: xs).sum / ((x :: xs).length : ℚ))

/-- Embedding of `df['spread'].max()` (source line 556): `none` on an empty
series, the greatest value otherwise. -/
def seriesMax : List ℚ → Option ℚ
  | [] => none
  | x :: xs => some (xs.foldl max x)

/-- Embedding of `df['spread'].min()` (source line 558): `none` on an empty
series, the least value otherwise. -/
def seriesMin : List ℚ → Option ℚ
  | [] => none
  | x :: xs => some (xs.foldl min x)

/-- The first observation date of a series (for a series sorted by date,
its earliest date); 0 for an empty series. -/
def firstDate : List (Nat × ℚ) → Nat
  | [] => 0
  | p :: _ => p.1

/-! ### Helper lemmas -/

lemma fin_match_iff (lo hi v : ℚ) :
    (fle (FVal.fin lo) (FVal.fin v) && flt (FVal.fin v) (FVal.fin hi)) = true ↔
      lo ≤ v ∧ v < hi := by
  simp [fle, flt]

lemma get_signal_status_cons_pos {value : FVal} {r : SignalRule} {rest : List SignalRule}
    (h : (fle r.min_val value && flt value r.max_val) = true) :
    get_signal_status value (r :: rest) = r.message := by
  simp [get_signal_status, h]

lemma get_signal_status_cons_neg {value : FVal} {r : SignalRule} {rest : List SignalRule}
    (h : (fle r.min_val value && flt value r.max_val) = false) :
    get_signal_status value (r :: rest) = get_signal_status value rest := by
  simp [get_signal_status, h]

lemma twoRules_eval (tmin tmax v : ℚ) :
    get_signal_status (FVal.fin v) (twoRules tmin tmax) =
      if tmin ≤ v ∧ v < tmax then "inside" else "outside" := by
  by_cases h : tmin ≤ v ∧ v < tmax
  · rw [if_pos h]
    exact get_signal_status_cons_pos ((fin_match_iff tmin tmax v).mpr h)
  · rw [if_neg h]
    unfold twoRules
    rw [get_signal_status_cons_neg (by
      rw [Bool.eq_false_iff]
      intro hc
      exact h ((fin_match_iff tmin tmax v).mp hc))]
    exact get_signal_status_cons_pos (by simp [fle, flt])

/-! ### Claim theorems -/

/-- C1: for adjacent rules `[a, b)` and `[b, c)` with `a < b < c`, classifying
the boundary value `b` returns the message of the rule with inclusive lower
bound `b` (in either declaration order), and a value matches a rule exactly
when `lower <= value < upper`. -/
theorem C1_boundary_goes_to_inclusive_lower (a b c : ℚ) (n1 n2 m1 m2 : String)
    (hab : a < b) (hbc : b < c) :
    get_signal_status (FVal.fin b)
        [⟨n1, FVal.fin a, FVal.fin b, m1⟩, ⟨n2, FVal.fin b, FVal.fin c, m2⟩] = m2 ∧
    get_signal_status (FVal.fin b)
        [⟨n2, FVal.fin b, FVal.fin c, m2⟩, ⟨n1, FVal.fin a, FVal.fin b, m1⟩] = m2 ∧
    (∀ lo hi v : ℚ,
      (fle (FVal.fin lo) (FVal.fin v) && flt (FVal.fin v) (FVal.fin hi)) = true ↔
        lo ≤ v ∧ v < hi) := by
  refine ⟨?_, ?_, fin_match_iff⟩
  · rw [get_signal_status_cons_neg (by simp [fle, flt]),
      get_signal_status_cons_pos (by simp [fle, flt, le_refl, hbc])]
  · rw [get_signal_status_cons_pos (by simp [fle, flt, le_refl, hbc])]

/-- Witness for C1 at the spec's own example: rules `[-10, 10)` and
`[10, 20)`, value `10`. -/
theorem C1_boundary_witness :
    ((-10:ℚ) < 10 ∧ (10:ℚ) < 20) ∧
    (get_signal_status (FVal.fin 10)
        [⟨"normal", FVal.fin (-10), FVal.fin 10, "N"⟩,
         ⟨"tight", FVal.fin 10, FVal.fin 20, "T"⟩] = "T" ∧
     get_signal_status (FVal.fin 10)
        [⟨"tight", FVal.fin 10, FVal.fin 20, "T"⟩,
         ⟨"normal", FVal.fin (-10), FVal.fin 10, "N"⟩] = "T" ∧
     (∀ lo hi v : ℚ,
       (fle (FVal.fin lo) (FVal.fin v) && flt (FVal.fin v) (FVal.fin hi)) = true ↔
         lo ≤ v ∧ v < hi)) :=
  ⟨⟨by norm_num, by norm_num⟩,
    C1_boundary_goes_to_inclusive_lower (-10) 10 20 "normal" "tight" "N" "T"
      (by norm_num) (by norm_num)⟩

/-- C5: the classifier returns the first rule in declared order whose
half-open interval contains the value (first-match-wins, also when rules
overlap). -/
theorem C5_first_match_wins (value : FVal) (signals : List SignalRule) (r : SignalRule)
    (h : signals.find? (fun s => fle s.min_val value && flt value s.max_val) = some r) :
    get_signal_status value signals = r.message := by
  induction signals with
  | nil => simp [List.find?] at h
  | cons s rest ih =>
    by_cases hp : (fle s.min_val value && flt value s.max_val) = true
    · have hfind : List.find? (fun t => fle t.min_val value && flt value t.max_val)
          (s :: rest) = some s :=
        List.find?_cons_of_pos rest hp
      rw [hfind] at h
      injection h with h
      subst h
      exact get_signal_status_cons_pos hp
    · have hfind : List.find? (fun t => fle t.min_val value && flt value t.max_val)
          (s :: rest) = List.find? (fun t => fle t.min_val value && flt value t.max_val) rest :=
        List.find?_cons_of_neg rest (by simpa using hp)
      rw [hfind] at h
      rw [get_signal_status_cons_neg (Bool.eq_false_iff.mpr hp)]
      exact ih h

/-- Witness for C5 with two overlapping rules, value 7 inside both: the first
declared rule wins. -/
theorem C5_first_match_witness :
    (([⟨"a", FVal.fin 0, FVal.fin 10, "A"⟩,
       ⟨"b", FVal.fin 5, FVal.fin 15, "B"⟩] : List SignalRule).find?
        (fun s => fle s.min_val (FVal.fin 7) && flt (FVal.fin 7) s.max_val) =
      some ⟨"a", FVal.fin 0, FVal.fin 10, "A"⟩) ∧
    get_signal_status (FVal.fin 7)
        [⟨"a", FVal.fin 0, FVal.fin 10, "A"⟩,
         ⟨"b", FVal.fin 5, FVal.fin 15, "B"⟩] = "A" :=
  ⟨by norm_num [List.find?, fle, flt],
    C5_first_match_wins (FVal.fin 7)
      [⟨"a", FVal.fin 0, FVal.fin 10, "A"⟩, ⟨"b", FVal.fin 5, FVal.fin 15, "B"⟩]
      ⟨"a", FVal.fin 0, FVal.fin 10, "A"⟩
      (by norm_num [List.find?, fle, flt])⟩

/-- C6: when no rule's interval contains the value, the classifier returns
the default label instead of failing; unbounded endpoints are handled by the
same comparison functions. -/
theorem C6_no_match_default (value : FVal) (signals : List SignalRule)
    (h : ∀ r ∈ signals, (fle r.min_val value && flt value r.max_val) = false) :
    get_signal_status value signals = defaultStatus := by
  induction signals with
  | nil => rfl
  | cons s rest ih =>
    rw [get_signal_status_cons_neg (h s (List.mem_cons_self s rest))]
    exact ih (fun r hr => h r (List.mem_cons_of_mem s hr))

/-- Witness for C6: a RuleSet with an unbounded-below rule and an
unbounded-above rule, and a value in the uncovered middle gap, yields the
default label. -/
theorem C6_no_match_witness :
    (∀ r ∈ ([⟨"easing", FVal.ninf, FVal.fin (-20), "below"⟩,
             ⟨"tightening", FVal.fin 20, FVal.pinf, "above"⟩] : List SignalRule),
        (fle r.min_val (FVal.fin 0) && flt (FVal.fin 0) r.max_val) = false) ∧
    get_signal_status (FVal.fin 0)
        [⟨"easing", FVal.ninf, FVal.fin (-20), "below"⟩,
         ⟨"tightening", FVal.fin 20, FVal.pinf, "above"⟩] = defaultStatus :=
  ⟨by norm_num [fle, flt],
    C6_no_match_default _ _ (by norm_num [fle, flt])⟩

/-- C10: the classifier is total: for every value (NaN included) it returns
either the default label or the message of one of its rules; NaN satisfies no
rule comparison, so a NaN value always yields the default label. -/
theorem C10_classifier_totality (value : FVal) (signals : List SignalRule) :
    (get_signal_status value signals = defaultStatus ∨
      ∃ r ∈ signals, get_signal_status value signals = r.message) ∧
    (∀ lo hi : FVal, (fle lo FVal.nan && flt FVal.nan hi) = false) ∧
    get_signal_status FVal.nan signals = defaultStatus := by
  refine ⟨?_, ?_, ?_⟩
  · induction signals with
    | nil => exact Or.inl rfl
    | cons s rest ih =>
      by_cases hp : (fle s.min_val value && flt value s.max_val) = true
      · exact Or.inr ⟨s, List.mem_cons_self s rest, get_signal_status_cons_pos hp⟩
      · rw [get_signal_status_cons_neg (Bool.eq_false_iff.mpr hp)]
        rcases ih with h | ⟨r, hr, he⟩
        · exact Or.inl h
        · exact Or.inr ⟨r, List.mem_cons_of_mem s hr, he⟩
  · intro lo hi
    cases lo <;> rfl
  · induction signals with
    | nil => rfl
    | cons s rest ih =>
      rw [get_signal_status_cons_neg (by cases hs : s.min_val <;> rfl)]
      exact ih

/-- C9 counterexample: at the upper bound of the band the inclusive-both-ends
check `in_range` accepts the value, while the two-rule classifier with the
half-open inside band `[min, max)` classifies it as outside, so the claimed
equivalence fails at `value = threshold_max`. -/
theorem C9_counterexample :
    in_range (-10) 10 10 = true ∧
    get_signal_status (FVal.fin 10) (twoRules (-10) 10) = "outside" ∧
    get_signal_status (FVal.fin 10) (twoRules (-10) 10) ≠ "inside" := by
  refine ⟨by norm_num [in_range], ?_, ?_⟩
  · rw [twoRules_eval]
    rw [if_neg (by norm_num)]
  · rw [twoRules_eval]
    rw [if_neg (by norm_num)]
    decide

/-- C9 (amended): the `in_range` predicate is inclusive at both ends, so it
holds exactly when the two-rule classifier returns the inside rule or the
value sits exactly at the upper bound (with the lower bound satisfied). -/
theorem C9_in_range_vs_two_rule_classifier (threshold_min threshold_max value : ℚ) :
    in_range threshold_min threshold_max value = true ↔
      (get_signal_status (FVal.fin value) (twoRules threshold_min threshold_max) = "inside" ∨
        (threshold_min ≤ value ∧ value = threshold_max)) := by
  rw [twoRules_eval]
  constructor
  · intro h
    simp only [in_range, Bool.and_eq_true, decide_eq_true_eq] at h
    obtain ⟨h1, h2⟩ := h
    rcases lt_or_eq_of_le h2 with hlt | heq
    · left
      rw [if_pos ⟨h1, hlt⟩]
    · right
      exact ⟨h1, heq⟩
  · intro h
    simp only [in_range, Bool.and_eq_true, decide_eq_true_eq]
    rcases h with h | ⟨h1, h2⟩
    · by_cases hc : threshold_min ≤ value ∧ value < threshold_max
      · exact ⟨hc.1, hc.2.le⟩
      · rw [if_neg hc] at h
        exact absurd h (by decide)
    · exact ⟨h1, h2.le⟩

/-- C3: the spread series is the per-date scaled difference
`multiplier * (a - b)` over exactly the dates of the aligned pair, and on the
spec's Scenario 1 the aligned row for the second date forward-fills series B
to 5.40 and the spread with multiplier 100 is -7bp. -/
theorem C3_spread_formula_and_scenario :
    (∀ (multiplier : ℚ) (aligned : List (Nat × ℚ × ℚ)),
        computeSpread multiplier aligned =
          aligned.map (fun r => (r.1, multiplier * (r.2.1 - r.2.2)))) ∧
    align [((1:Nat), (533:ℚ)/100), (2, (533:ℚ)/100)] [(1, (540:ℚ)/100)] =
      [(1, (533:ℚ)/100, (540:ℚ)/100), (2, (533:ℚ)/100, (540:ℚ)/100)] ∧
    computeSpread 100 (align [((1:Nat), (533:ℚ)/100), (2, (533:ℚ)/100)] [(1, (540:ℚ)/100)]) =
      [(1, -7), (2, -7)] := by
  refine ⟨?_, ?_, ?_⟩
  · intro multiplier aligned
    simp [computeSpread, mul_comm]
  · norm_num [align, unionDates, insertSorted, lookupFfill, alignRow,
      List.filterMap_cons, List.filterMap_nil]
  · norm_num [align, unionDates, insertSorted, lookupFfill, alignRow, computeSpread,
      List.filterMap_cons, List.filterMap_nil]

/-- C2 counterexample: with a non-empty series A and an empty series B the
code raises nothing: the aligned frame is empty and the latest value is
`None`, i.e. the align step silently returns an empty result instead of
failing with an AlignmentError. -/
theorem C2_counterexample :
    align [((1:Nat), (533:ℚ)/100)] [] = [] ∧
    (calculate_spread [((1:Nat), (533:ℚ)/100)] [] 100).2 = none := by
  constructor
  · norm_num [align, unionDates, insertSorted, lookupFfill, alignRow,
      List.filterMap_cons, List.filterMap_nil]
  · norm_num [calculate_spread, align, unionDates, insertSorted, lookupFfill, alignRow,
      computeSpread, latestValue, List.filterMap_cons, List.filterMap_nil]

/-- C2 (amended): when either input series is empty, the join-ffill-dropna
pipeline returns an empty aligned frame and `calculate_spread` reports the
latest value as `None`; no exception of any kind is raised. -/
theorem C2_empty_series_silent_empty (s1 s2 : List (Nat × ℚ)) (multiplier : ℚ)
    (h : s1 = [] ∨ s2 = []) :
    align s1 s2 = [] ∧ (calculate_spread s1 s2 multiplier).2 = none := by
  have halign : align s1 s2 = [] := by
    rw [align, List.filterMap_eq_nil_iff]
    intro d _
    rcases h with h | h <;> subst h
    · show alignRow [] s2 d = none
      unfold alignRow
      rw [show lookupFfill [] d = none from rfl]
    · show alignRow s1 [] d = none
      unfold alignRow
      rw [show lookupFfill [] d = none from rfl]
      cases lookupFfill s1 d <;> rfl
  rw [halign]
  simp [calculate_spread, computeSpread, latestValue, halign]

/-- Witness for C2 (amended) at a concrete non-empty/empty pair. -/
theorem C2_empty_series_witness :
    ([((1:Nat), (5:ℚ))] = [] ∨ ([] : List (Nat × ℚ)) = []) ∧
    (align [((1:Nat), (5:ℚ))] [] = [] ∧
      (calculate_spread [((1:Nat), (5:ℚ))] [] 100).2 = none) :=
  ⟨Or.inr rfl, C2_empty_series_silent_empty [((1:Nat), (5:ℚ))] [] 100 (Or.inr rfl)⟩

/-- C7 counterexample: a row reaching the spread computation with a missing
value produces a NaN spread cell (the pandas arithmetic silently propagates
the missing value); no DataIntegrityError or any other failure occurs. -/
theorem C7_counterexample :
    spreadRowVal 100 (some ((533:ℚ)/100)) none = none ∧
    spreadRowVal 100 none (some ((540:ℚ)/100)) = none :=
  ⟨rfl, rfl⟩

/-- C7 (amended): the spread computation contains no NaN check: on a row the
result is NaN exactly when an input cell is NaN (silent propagation, never an
error), and inside `calculate_spread` every row surviving `dropna()` has both
cells present, so every spread value the code actually produces is defined. -/
theorem C7_nan_silently_propagates :
    (∀ (multiplier : ℚ) (a b : Option ℚ),
        spreadRowVal multiplier a b = none ↔ (a = none ∨ b = none)) ∧
    (∀ (multiplier : ℚ) (s1 s2 : List (Nat × ℚ)),
        (align s1 s2).map (fun r => spreadRowVal multiplier (some r.2.1) (some r.2.2)) =
          (computeSpread multiplier (align s1 s2)).map (fun p => some p.2)) := by
  constructor
  · intro multiplier a b
    cases a <;> cases b <;> simp [spreadRowVal]
  · intro multiplier s1 s2
    simp [computeSpread, spreadRowVal, List.map_map]

/-- C8 counterexample: on empty inputs the spread series is empty and the
code reports the latest value as `None` (source line 254) and the pandas
reductions as NaN; no EmptySeriesError is raised. -/
theorem C8_counterexample :
    (calculate_spread [] [] 100).2 = none ∧
    seriesMean [] = none ∧ seriesMax [] = none ∧ seriesMin [] = none :=
  ⟨rfl, rfl, rfl, rfl⟩

/-- C8 (amended): latest, mean, min and max are the scalar reductions of the
spread series, with latest the value at the last date; on the spec's Scenario
4 series `[-5, -3, -8, -1]` they are `-1`, `-17/4 = -4.25`, `-8` and `-1`; on
an empty series latest is `None` and the reductions are NaN (`none`), with no
error raised. -/
theorem C8_summary_stats :
    (∀ (s : List (Nat × ℚ)) (p : Nat × ℚ), latestValue (s ++ [p]) = some p.2) ∧
    latestValue [((1:Nat), (-5:ℚ)), (2, -3), (3, -8), (4, -1)] = some (-1) ∧
    seriesMean [(-5:ℚ), -3, -8, -1] = some (-17/4) ∧
    seriesMax [(-5:ℚ), -3, -8, -1] = some (-1) ∧
    seriesMin [(-5:ℚ), -3, -8, -1] = some (-8) ∧
    latestValue [] = none ∧ seriesMean [] = none ∧
    seriesMax [] = none ∧ seriesMin [] = none := by
  refine ⟨?_, ?_, ?_, ?_, ?_, rfl, rfl, rfl, rfl⟩
  · intro s p
    simp [latestValue, List.getLast?_concat]
  · norm_num [latestValue, List.getLast?]
  · norm_num [seriesMean]
  · norm_num [seriesMax]
  · norm_num [seriesMin]

lemma insertSorted_of_lt {d x : Nat} (xs : List Nat) (h : d < x) :
    insertSorted d (x :: xs) = d :: x :: xs := by
  simp [insertSorted, h]

lemma insertSorted_of_eq {d x : Nat} (xs : List Nat) (h : d = x) :
    insertSorted d (x :: xs) = x :: xs := by
  subst h
  simp [insertSorted, lt_irrefl]

lemma insertSorted_of_gt {d x : Nat} (xs : List Nat) (h : x < d) :
    insertSorted d (x :: xs) = x :: insertSorted d xs := by
  have h1 : ¬ d < x := by omega
  have h2 : ¬ d = x := by omega
  simp [insertSorted, h1, h2]

lemma mem_insertSorted {x d : Nat} : ∀ {l : List Nat}, x ∈ insertSorted d l ↔ x = d ∨ x ∈ l := by
  intro l
  induction l with
  | nil => simp [insertSorted]
  | cons y ys ih =>
    rcases Nat.lt_trichotomy d y with h1 | h1 | h1
    · rw [insertSorted_of_lt ys h1]
      simp
    · rw [insertSorted_of_eq ys h1]
      subst h1
      simp only [List.mem_cons]
      tauto
    · rw [insertSorted_of_gt ys h1]
      simp only [List.mem_cons, ih]
      tauto

lemma sorted_insertSorted (d : Nat) :
    ∀ {l : List Nat}, List.Sorted (· < ·) l → List.Sorted (· < ·) (insertSorted d l) := by
  intro l
  induction l with
  | nil =>
    intro _
    simp [insertSorted]
  | cons y ys ih =>
    intro hs
    rw [List.sorted_cons] at hs
    obtain ⟨hy, hys⟩ := hs
    rcases Nat.lt_trichotomy d y with h1 | h1 | h1
    · rw [insertSorted_of_lt ys h1]
      rw [List.sorted_cons]
      refine ⟨?_, ?_⟩
      · intro b hb
        rcases List.mem_cons.mp hb with rfl | hb
        · exact h1
        · exact h1.trans (hy b hb)
      · rw [List.sorted_cons]
        exact ⟨hy, hys⟩
    · rw [insertSorted_of_eq ys h1]
      rw [List.sorted_cons]
      exact ⟨hy, hys⟩
    · rw [insertSorted_of_gt ys h1]
      rw [List.sorted_cons]
      refine ⟨?_, ih hys⟩
      intro b hb
      rcases mem_insertSorted.mp hb with rfl | hb
      · exact h1
      · exact hy b hb

lemma sorted_unionDates (s1 s2 : List (Nat × ℚ)) :
    List.Sorted (· < ·) (unionDates s1 s2) := by
  unfold unionDates
  generalize (s1.map Prod.fst ++ s2.map Prod.fst) = ds
  induction ds with
  | nil => simp
  | cons d ds ih => exact sorted_insertSorted d ih

lemma lookupFfill_mem {s : List (Nat × ℚ)} {d : Nat} {v : ℚ}
    (h : lookupFfill s d = some v) : ∃ p ∈ s, p.1 ≤ d := by
  induction s with
  | nil => simp [lookupFfill] at h
  | cons p rest ih =>
    by_cases hp : p.1 ≤ d
    · exact ⟨p, List.mem_cons_self p rest, hp⟩
    · rw [show lookupFfill (p :: rest) d = lookupFfill rest d by
        simp [lookupFfill, hp]] at h
      obtain ⟨q, hq, hqd⟩ := ih h
      exact ⟨q, List.mem_cons_of_mem p hq, hqd⟩

lemma alignRow_eq_some {s1 s2 : List (Nat × ℚ)} {d : Nat} {row : Nat × ℚ × ℚ}
    (h : alignRow s1 s2 d = some row) :
    row.1 = d ∧ lookupFfill s1 d = some row.2.1 ∧ lookupFfill s2 d = some row.2.2 := by
  unfold alignRow at h
  cases h1 : lookupFfill s1 d with
  | none =>
    rw [h1] at h
    cases h2 : lookupFfill s2 d <;> rw [h2] at h <;> exact absurd h (by simp)
  | some a =>
    rw [h1] at h
    cases h2 : lookupFfill s2 d with
    | none =>
      rw [h2] at h
      exact absurd h (by simp)
    | some b =>
      rw [h2] at h
      simp only [Option.some.injEq] at h
      subst h
      exact ⟨rfl, rfl, rfl⟩

lemma mem_align {s1 s2 : List (Nat × ℚ)} {row : Nat × ℚ × ℚ}
    (h : row ∈ align s1 s2) :
    lookupFfill s1 row.1 = some row.2.1 ∧ lookupFfill s2 row.1 = some row.2.2 := by
  obtain ⟨d, _, hrow⟩ := List.mem_filterMap.mp h
  obtain ⟨hd, ha, hb⟩ := alignRow_eq_some hrow
  rw [hd]
  exact ⟨ha, hb⟩

lemma map_fst_align_sublist (s1 s2 : List (Nat × ℚ)) :
    ((align s1 s2).map Prod.fst).Sublist (unionDates s1 s2) := by
  unfold align
  generalize unionDates s1 s2 = l
  induction l with
  | nil => simp
  | cons d ds ih =>
    rw [List.filterMap_cons]
    cases h : alignRow s1 s2 d with
    | none => exact ih.cons d
    | some r =>
      rw [List.map_cons, (alignRow_eq_some h).1]
      exact ih.cons₂ d

lemma sorted_align_dates (s1 s2 : List (Nat × ℚ)) :
    List.Sorted (· < ·) ((align s1 s2).map Prod.fst) :=
  List.Pairwise.sublist (map_fst_align_sublist s1 s2) (sorted_unionDates s1 s2)

lemma firstDate_le_of_mem {s : List (Nat × ℚ)}
    (hs : List.Sorted (· < ·) (s.map Prod.fst)) {p : Nat × ℚ} (hp : p ∈ s) :
    firstDate s ≤ p.1 := by
  cases s with
  | nil => cases hp
  | cons q rest =>
    rcases List.mem_cons.mp hp with rfl | hp
    · exact le_refl _
    · rw [List.map_cons, List.sorted_cons] at hs
      exact le_of_lt (hs.1 p.1 (List.mem_map_of_mem Prod.fst hp))

/-- C4: for sorted non-empty input series, every aligned row carries the two
forward-filled values (both defined), no aligned date precedes the later of
the two first observation dates, and the aligned dates are strictly
ascending. -/
theorem C4_alignment_invariants (s1 s2 : List (Nat × ℚ))
    (h1 : List.Sorted (· < ·) (s1.map Prod.fst))
    (h2 : List.Sorted (· < ·) (s2.map Prod.fst))
    (hn1 : s1 ≠ []) (hn2 : s2 ≠ []) :
    (∀ row ∈ align s1 s2,
        lookupFfill s1 row.1 = some row.2.1 ∧ lookupFfill s2 row.1 = some row.2.2) ∧
    (∀ row ∈ align s1 s2, firstDate s1 ≤ row.1 ∧ firstDate s2 ≤ row.1) ∧
    List.Sorted (· < ·) ((align s1 s2).map Prod.fst) := by
  refine ⟨fun row hrow => mem_align hrow, ?_, sorted_align_dates s1 s2⟩
  intro row hrow
  obtain ⟨ha, hb⟩ := mem_align hrow
  obtain ⟨p, hp, hpd⟩ := lookupFfill_mem ha
  obtain ⟨q, hq, hqd⟩ := lookupFfill_mem hb
  exact ⟨(firstDate_le_of_mem h1 hp).trans hpd, (firstDate_le_of_mem h2 hq).trans hqd⟩

/-- Witness for C4 at concrete sorted series with disjoint dates. -/
theorem C4_alignment_witness :
    (List.Sorted (· < ·) ([((1:Nat), (1:ℚ)), (3, 2)].map Prod.fst) ∧
     List.Sorted (· < ·) ([((2:Nat), (5:ℚ))].map Prod.fst) ∧
     [((1:Nat), (1:ℚ)), (3, 2)] ≠ [] ∧ [((2:Nat), (5:ℚ))] ≠ []) ∧
    ((∀ row ∈ align [((1:Nat), (1:ℚ)), (3, 2)] [((2:Nat), (5:ℚ))],
        lookupFfill [((1:Nat), (1:ℚ)), (3, 2)] row.1 = some row.2.1 ∧
        lookupFfill [((2:Nat), (5:ℚ))] row.1 = some row.2.2) ∧
     (∀ row ∈ align [((1:Nat), (1:ℚ)), (3, 2)] [((2:Nat), (5:ℚ))],
        firstDate [((1:Nat), (1:ℚ)), (3, 2)] ≤ row.1 ∧
        firstDate [((2:Nat), (5:ℚ))] ≤ row.1) ∧
     List.Sorted (· < ·)
        ((align [((1:Nat), (1:ℚ)), (3, 2)] [((2:Nat), (5:ℚ))]).map Prod.fst)) :=
  ⟨⟨by simp, by simp, by simp, by simp⟩,
    C4_alignment_invariants [((1:Nat), (1:ℚ)), (3, 2)] [((2:Nat), (5:ℚ))]
      (by simp) (by simp) (by simp) (by simp)⟩
